import Mathlib

/-!
Verification development for the offline-first task-management core of the
repository: the StorageService key-value/cache layer (src/unnamed/part_001,
a React Native AsyncStorage wrapper) and the ApiService sync orchestrator
(src/app/App.tsx, class ApiService).

Modelling conventions:
  - AsyncStorage is a string-keyed store of JSON documents, embedded as an
    association list from keys to an inductive document type JVal.
  - JavaScript objects with optional fields become structures whose fields
    have defaults mirroring the absent-field behaviour that the code relies
    on (an absent id is the empty string, the falsy value the code tests).
  - Date.now() and the connectivity flag are explicit parameters; each
    remote HTTP call's outcome is drawn from an environment (Env) indexed
    by a call counter, so theorems quantify over every network behaviour.
  - Cache validity in the source compares now - timestamp < expirationTime
    on JavaScript numbers; it is embedded with exact integer arithmetic.
  - Array.prototype.sort with the comparator on createdAt is a stable
    descending sort, embedded as a stable insertion sort.
-/

namespace TaskApp

/-- A task record.  Fields mirror the shape produced by the app; defaults
stand for absent fields of the dynamically shaped JS objects ("" and 0 are
the falsy defaults the code tests against).  createdAt is the epoch value
of the ISO timestamp. -/
structure Task where
  id : String := ""
  title : String := ""
  description : String := ""
  priority : String := ""
  source : String := ""
  createdAt : Nat := 0
  offline : Bool := false
  synced : Bool := false
deriving DecidableEq, Repr

/-- A partial task update, as passed to update flows; a JS object spread
merges only the fields that are present. -/
structure TaskPatch where
  id : Option String := none
  title : Option String := none
  description : Option String := none
  priority : Option String := none
  source : Option String := none
  createdAt : Option Nat := none
  offline : Option Bool := none
  synced : Option Bool := none
deriving DecidableEq, Repr

/-- Spread of a patch over a task, as in the JS object spread
left-to-right merge of the two objects. -/
def applyPatch (t : Task) (p : TaskPatch) : Task :=
  { id := p.id.getD t.id
    title := p.title.getD t.title
    description := p.description.getD t.description
    priority := p.priority.getD t.priority
    source := p.source.getD t.source
    createdAt := p.createdAt.getD t.createdAt
    offline := p.offline.getD t.offline
    synced := p.synced.getD t.synced }

/-- View of a full task as a patch that overrides every field, used where
the code spreads a whole task object as the update argument. -/
def Task.toPatch (t : Task) : TaskPatch :=
  { id := some t.id
    title := some t.title
    description := some t.description
    priority := some t.priority
    source := some t.source
    createdAt := some t.createdAt
    offline := some t.offline
    synced := some t.synced }

/-- An entry of the offline mutation queue:
change = `\x7b action, task, timestamp \x7d` in addToOfflineChangesQueue. -/
structure OfflineChange where
  action : String := ""
  task : Task := {}
  timestamp : Nat := 0
deriving DecidableEq, Repr

/-- A JSON document held by AsyncStorage under one key.  The documents the
app actually writes: a task array (TASKS key and cache envelope payloads),
an offline-change array (OFFLINE_CHANGES key), a cache envelope
`\x7b data, timestamp, expirationTime \x7d`, or some other/corrupt value that
does not parse as any of those shapes (jRaw). -/
inductive JVal where
  | jTasks : List Task → JVal
  | jChanges : List OfflineChange → JVal
  | jEnv : List Task → Nat → Nat → JVal
  | jRaw : String → JVal
deriving DecidableEq, Repr

/-- The AsyncStorage state: an association list from string keys to
documents, with the usual key-value map operations below. -/
abbrev Store := List (String × JVal)

/-- CACHE_EXPIRATION.SHORT = 5 minutes in milliseconds. -/
def CACHE_EXPIRATION.SHORT : Nat := 5 * 60 * 1000

/-- CACHE_EXPIRATION.MEDIUM = 30 minutes in milliseconds. -/
def CACHE_EXPIRATION.MEDIUM : Nat := 30 * 60 * 1000

namespace StorageService

/-- StorageService.get: AsyncStorage.getItem plus JSON.parse (a value that
does not parse is returned as-is, modelled by jRaw); null on a missing
key. -/
def get (s : Store) (key : String) : Option JVal :=
  (s.find? (fun p => p.fst == key)).map Prod.snd

/-- StorageService.set: AsyncStorage.setItem, replacing any previous value
under the key. -/
def set (s : Store) (key : String) (v : JVal) : Store :=
  s.filter (fun p => p.fst != key) ++ [(key, v)]

/-- StorageService.remove: AsyncStorage.removeItem. -/
def remove (s : Store) (key : String) : Store :=
  s.filter (fun p => p.fst != key)

/-- StorageService.getCached: validity-checked cache read at time `now`.
Reads CACHE_<key>; a well-formed envelope is a hit iff
now - timestamp < expirationTime (exact integer comparison, as on JS
numbers), and an expired or corrupt entry is removed (lazy eviction).
Returns the data together with the updated store. -/
def getCached (s : Store) (key : String) (expirationTime : Nat) (now : Nat) :
    Option (List Task) × Store :=
  let cacheKey := "CACHE_" ++ key
  match get s cacheKey with
  | some (JVal.jEnv data timestamp _stored) =>
      if (now : Int) - (timestamp : Int) < (expirationTime : Int) then
        (some data, s)
      else
        (none, remove s cacheKey)
  | some _ => (none, remove s cacheKey)
  | none => (none, s)

/-- StorageService.setCached: writes the envelope
`\x7b data, timestamp: Date.now(), expirationTime \x7d` under CACHE_<key>. -/
def setCached (s : Store) (key : String) (value : List Task)
    (expirationTime : Nat) (now : Nat) : Store :=
  set s ("CACHE_" ++ key) (JVal.jEnv value now expirationTime)

/-- StorageService.getTasks: the permanent local task list under the TASKS
key, or [] when the key is absent.  (A non-array value under TASKS is
outside the state space the service itself produces: saveTasks only ever
writes arrays; such a value is read as [].) -/
def getTasks (s : Store) : List Task :=
  match get s "TASKS" with
  | some (JVal.jTasks ts) => ts
  | _ => []

/-- StorageService.saveTasks: writes the permanent list under TASKS and
also (re)writes the tasks_list cache envelope with the same list under the
SHORT window. -/
def saveTasks (s : Store) (tasks : List Task) (now : Nat) : Store :=
  let s1 := set s "TASKS" (JVal.jTasks tasks)
  setCached s1 "tasks_list" tasks CACHE_EXPIRATION.SHORT now

/-- StorageService.getTaskById: first permanent task with the given id. -/
def getTaskById (s : Store) (id : String) : Option Task :=
  (getTasks s).find? (fun t => t.id == id)

end StorageService

/-- Replacement of the first element whose id matches (the findIndex-based
in-place update in StorageService.saveTask). -/
def replaceFirst (t : Task) : List Task → List Task
  | [] => []
  | u :: us => if u.id == t.id then t :: us else u :: replaceFirst t us

/-- Update of the first element whose id matches (the findIndex-based
in-place update in StorageService.updateTask). -/
def updateFirst (taskId : String) (f : Task → Task) : List Task → List Task
  | [] => []
  | u :: us => if u.id == taskId then f u :: us else u :: updateFirst taskId f us

/-- One step of the stable descending insertion sort on createdAt. -/
def insertByCreatedAt (t : Task) : List Task → List Task
  | [] => [t]
  | u :: us =>
      if u.createdAt ≤ t.createdAt then t :: u :: us
      else u :: insertByCreatedAt t us

/-- tasks.sort((a, b) => new Date(b.createdAt) - new Date(a.createdAt)):
a stable sort by createdAt descending (Array.prototype.sort is stable). -/
def sortByCreatedAtDesc (l : List Task) : List Task :=
  l.foldr insertByCreatedAt []

namespace StorageService

/-- StorageService.saveTask: upsert by id into the permanent list, re-sort
by createdAt descending, write back through saveTasks. -/
def saveTask (s : Store) (task : Task) (now : Nat) : Store :=
  let tasks := getTasks s
  let upserted :=
    if tasks.any (fun t => t.id == task.id) then replaceFirst task tasks
    else tasks ++ [task]
  saveTasks s (sortByCreatedAtDesc upserted) now

/-- StorageService.updateTask: merge the updates into the first task with
the given id and write back (returning the updated record), or return null
leaving the store untouched when the id is absent. -/
def updateTask (s : Store) (taskId : String) (updates : TaskPatch)
    (now : Nat) : Option Task × Store :=
  let tasks := getTasks s
  if tasks.any (fun t => t.id == taskId) then
    let newTasks := updateFirst taskId (fun t => applyPatch t updates) tasks
    (newTasks.find? (fun t => t.id == taskId), saveTasks s newTasks now)
  else
    (none, s)

/-- StorageService.deleteTask: drop every permanent task with the given id
and write back through saveTasks. -/
def deleteTask (s : Store) (taskId : String) (now : Nat) : Store :=
  saveTasks s ((getTasks s).filter (fun t => t.id != taskId)) now

/-- StorageService.getOfflineChanges: the queued changes under
OFFLINE_CHANGES, or [] when the key is absent. -/
def getOfflineChanges (s : Store) : List OfflineChange :=
  match get s "OFFLINE_CHANGES" with
  | some (JVal.jChanges cs) => cs
  | _ => []

/-- StorageService.saveOfflineChanges: writes the queue. -/
def saveOfflineChanges (s : Store) (changes : List OfflineChange) : Store :=
  set s "OFFLINE_CHANGES" (JVal.jChanges changes)

/-- StorageService.clearOfflineChanges: removes the queue key. -/
def clearOfflineChanges (s : Store) : Store :=
  remove s "OFFLINE_CHANGES"

/-- StorageService.clearCache: removes every key under the CACHE_
namespace and nothing else. -/
def clearCache (s : Store) : Store :=
  s.filter (fun p => !(p.fst.startsWith "CACHE_"))

end StorageService

/-- One remote item as returned by GET /todos (JSONPlaceholder shape);
id = 0 stands for a falsy/absent remote id. -/
structure ApiItem where
  id : Nat := 0
  title : String := ""
  userId : Nat := 0
  completed : Bool := false
deriving DecidableEq, Repr

/-- The environment of one orchestrator operation: the connectivity flag,
the clock, and the outcome of each remote call.  apiGetTasks is the GET
/todos outcome (none = the call throws); apiOk n is whether the n-th
mutating HTTP call of the operation succeeds; apiPutResponse n is the body
the remote echoes for a successful n-th PUT; genId n is the n-th value
drawn from generateUniqueId. -/
structure Env where
  isOnline : Bool
  now : Nat
  apiGetTasks : Option (List ApiItem)
  apiOk : Nat → Bool
  apiPutResponse : Nat → Task
  genId : Nat → String

/-- Result object of fetchTasksFromApi (absent JS fields default). -/
structure FetchResult where
  success : Bool
  data : List Task := []
  source : String := ""
  offline : Bool := false
  error : Option String := none
deriving DecidableEq, Repr

/-- Result object of getTasks. -/
structure GetTasksResult where
  success : Bool
  data : List Task := []
  source : String := ""
  offline : Bool := false
deriving DecidableEq, Repr

/-- Result object of updateTask / deleteTask (absent JS fields default). -/
structure MutResult where
  success : Bool
  data : Option Task := none
  offline : Bool := false
  source : Option String := none
deriving DecidableEq, Repr

/-- One element pushed onto syncResults during a drain. -/
structure SyncItem where
  taskId : String
  result : MutResult
  action : String
deriving DecidableEq, Repr

/-- Result object of syncOfflineChanges (absent JS fields default). -/
structure SyncResult where
  success : Bool
  syncResults : List SyncItem := []
  error : Option String := none
deriving DecidableEq, Repr

/-- The map step of fetchTasksFromApi over one remote item: remote id
coerced to string when truthy, else a generated id; description assembled
from userId and completed; priority derived from completed; source api;
createdAt the current instant. -/
def mapApiItem (env : Env) (idx : Nat) (item : ApiItem) : Task :=
  { id := if item.id != 0 then toString item.id else env.genId idx
    title := item.title
    description := "User ID: " ++ toString item.userId ++ " (Completed: "
      ++ (if item.completed then "true" else "false") ++ ")"
    priority := if item.completed then "low" else "medium"
    source := "api"
    createdAt := env.now }

/-- response.map(item => ...) over the remote payload. -/
def mapApiItems (env : Env) (items : List ApiItem) : List Task :=
  items.enum.map (fun p => mapApiItem env p.fst p.snd)

/-- The marking applied to each permanent local task inside getTasks:
`\x7b ...task, source: 'local_permanent' \x7d`. -/
def markTask (t : Task) : Task :=
  { t with source := "local_permanent" }

/-- permanentLocalTasks.map(task => (\x7b ...task, source: 'local_permanent' \x7d)). -/
def markLocal (l : List Task) : List Task :=
  l.map markTask

/-- One uniqueTasksMap.set step of the merge in getTasks: a JS Map keyed
by id preserves insertion order; an existing key is overridden in place,
and only when the incoming record's source is api or cache. -/
def insertTaskMap (acc : List Task) (t : Task) : List Task :=
  if acc.any (fun u => u.id == t.id) then
    if t.source == "api" || t.source == "cache" then
      acc.map (fun u => if u.id == t.id then t else u)
    else acc
  else acc ++ [t]

/-- The uniqueTasksMap loop of getTasks: fold the combined list through
the Map, reading the values back in insertion order. -/
def uniqueById (l : List Task) : List Task :=
  l.foldl insertTaskMap []

/-- The merge block of getTasks: concatenate the remote/cache subset with
the (already marked) permanent subset, deduplicate by id with api/cache
precedence, sort by createdAt descending. -/
def mergeTasks (finalData markedLocal : List Task) : List Task :=
  sortByCreatedAtDesc (uniqueById (finalData ++ markedLocal))

namespace ApiService

/-- ApiService.addToOfflineChangesQueue: append one change to the stored
OFFLINE_CHANGES list; the enqueued task gets its id defaulted when falsy
and synced forced to false. -/
def addToOfflineChangesQueue (s : Store) (action : String) (taskData : Task)
    (now : Nat) (genId : String) : Store :=
  let change : OfflineChange :=
    { action := action
      task := { taskData with
                  id := if taskData.id == "" then genId else taskData.id
                  synced := false }
      timestamp := now }
  let changes := StorageService.getOfflineChanges s
  StorageService.saveOfflineChanges s (changes ++ [change])

/-- ApiService.fetchTasksFromApi: (1) validity-checked cache read unless
forceRefresh; (2) when offline, raw stale read of the same key, else a
typed failure; (3) online, GET /todos, write-through to the SHORT cache;
on API error a raw stale read, else a typed failure.  The final Bool
records whether the remote gateway was called. -/
def fetchTasksFromApi (env : Env) (s : Store) (forceRefresh : Bool) :
    FetchResult × Store × Bool :=
  let cacheKey := "tasks_list"
  let step1 :=
    if forceRefresh then ((none : Option (List Task)), s)
    else StorageService.getCached s cacheKey CACHE_EXPIRATION.SHORT env.now
  let s1 := step1.2
  match step1.1 with
  | some cachedData =>
      ({ success := true, data := cachedData, source := "cache",
         offline := false }, s1, false)
  | none =>
      if !env.isOnline then
        match StorageService.get s1 ("CACHE_" ++ cacheKey) with
        | some (JVal.jEnv d _ _) =>
            ({ success := true, data := d, source := "cache",
               offline := true }, s1, false)
        | _ =>
            ({ success := false,
               error := some "Offline and no cached data available.",
               offline := true }, s1, false)
      else
        match env.apiGetTasks with
        | some response =>
            let tasks := mapApiItems env response
            let s2 := StorageService.setCached s1 cacheKey tasks
              CACHE_EXPIRATION.SHORT env.now
            ({ success := true, data := tasks, source := "api",
               offline := false }, s2, true)
        | none =>
            match StorageService.get s1 ("CACHE_" ++ cacheKey) with
            | some (JVal.jEnv d _ _) =>
                ({ success := true, data := d, source := "cache",
                   offline := true }, s1, true)
            | _ =>
                ({ success := false, error := some "API error" }, s1, true)

/-- The remote/cache subset that getTasks merges: the fetched data on
success, [] on failure (finalData stays at its initial value). -/
def fetchedData (env : Env) (s : Store) (forceRefresh : Bool) : List Task :=
  let r := (fetchTasksFromApi env s forceRefresh).1
  if r.success then r.data else []

/-- ApiService.getTasks: fetch the remote/cache subset, load and mark the
permanent local tasks, merge with id-dedup (api/cache precedence), sort by
createdAt descending; always reports success.  The final Bool records
whether the remote gateway was called. -/
def getTasks (env : Env) (s : Store) (forceRefresh : Bool) :
    GetTasksResult × Store × Bool :=
  let fr := fetchTasksFromApi env s forceRefresh
  let apiResult := fr.1
  let s1 := fr.2.1
  let called := fr.2.2
  let finalData := if apiResult.success then apiResult.data else []
  let finalSource := if apiResult.success then apiResult.source else "api"
  let offlineMode := if apiResult.success then apiResult.offline else false
  let permanentLocalTasks := StorageService.getTasks s1
  let markedLocalTasks := markLocal permanentLocalTasks
  let uniqueTasks := uniqueById (finalData ++ markedLocalTasks)
  let sorted := sortByCreatedAtDesc uniqueTasks
  ({ success := true, data := sorted, source := finalSource,
     offline := offlineMode }, s1, called)

/-- ApiService.updateTask: online, attempt the remote PUT (the ctr-th
mutating call); on success return the echoed body; on failure or offline,
enqueue the update and still report success. -/
def updateTask (env : Env) (s : Store) (ctr : Nat) (taskId : String)
    (updates : TaskPatch) : MutResult × Store × Nat :=
  if env.isOnline then
    if env.apiOk ctr then
      ({ success := true, data := some (env.apiPutResponse ctr),
         offline := false }, s, ctr + 1)
    else
      let s1 := addToOfflineChangesQueue s "update"
        (applyPatch { id := taskId } updates) env.now (env.genId ctr)
      ({ success := true, offline := true }, s1, ctr + 1)
  else
    let s1 := addToOfflineChangesQueue s "update"
      (applyPatch { id := taskId } updates) env.now (env.genId ctr)
    ({ success := true, offline := true }, s1, ctr)

/-- ApiService.deleteTask: a permanent local id is deleted from the
repository (never touching the network); otherwise online, attempt the
remote DELETE, falling back to the offline queue on failure; offline,
enqueue directly.  Every path removes CACHE_tasks_list and reports
success. -/
def deleteTask (env : Env) (s : Store) (ctr : Nat) (taskId : String) :
    MutResult × Store × Nat :=
  if (StorageService.getTaskById s taskId).isSome then
    let s1 := StorageService.deleteTask s taskId env.now
    let s2 := StorageService.remove s1 "CACHE_tasks_list"
    ({ success := true, offline := true, source := some "local_permanent" },
     s2, ctr)
  else if env.isOnline then
    if env.apiOk ctr then
      let s1 := StorageService.remove s "CACHE_tasks_list"
      ({ success := true, offline := false }, s1, ctr + 1)
    else
      let s1 := addToOfflineChangesQueue s "delete" { id := taskId }
        env.now (env.genId ctr)
      let s2 := StorageService.remove s1 "CACHE_tasks_list"
      ({ success := true, offline := true }, s2, ctr + 1)
  else
    let s1 := addToOfflineChangesQueue s "delete" { id := taskId }
      env.now (env.genId ctr)
    let s2 := StorageService.remove s1 "CACHE_tasks_list"
    ({ success := true, offline := true }, s2, ctr)

/-- The replay loop of syncOfflineChanges: iterate the snapshot of the
queue in stored order, replaying each change through the orchestrator's
own updateTask/deleteTask and collecting one result per change (a delete
records the literal \x7b success: true \x7d the code pushes). -/
def syncLoop (env : Env) :
    List OfflineChange → Store → Nat → List SyncItem →
    List SyncItem × Store × Nat
  | [], s, ctr, acc => (acc, s, ctr)
  | c :: cs, s, ctr, acc =>
      if c.action == "create" then
        let r := updateTask env s ctr c.task.id c.task.toPatch
        syncLoop env cs r.2.1 r.2.2
          (acc ++ [{ taskId := c.task.id, result := r.1, action := "create" }])
      else if c.action == "delete" then
        let r := deleteTask env s ctr c.task.id
        syncLoop env cs r.2.1 r.2.2
          (acc ++ [{ taskId := c.task.id, result := { success := true },
                     action := "delete" }])
      else
        let r := updateTask env s ctr c.task.id c.task.toPatch
        syncLoop env cs r.2.1 r.2.2
          (acc ++ [{ taskId := c.task.id, result := r.1, action := "update" }])

/-- ApiService.syncOfflineChanges: offline yields a typed failure before
the queue is read; an empty queue yields an immediate empty success;
otherwise the queue is replayed in order and then unconditionally cleared,
and CACHE_tasks_list removed. -/
def syncOfflineChanges (env : Env) (s : Store) (ctr : Nat) :
    SyncResult × Store × Nat :=
  if !env.isOnline then
    ({ success := false, error := some "Cannot sync: Device is offline." },
     s, ctr)
  else
    let changes := StorageService.getOfflineChanges s
    if changes.length == 0 then
      ({ success := true, syncResults := [] }, s, ctr)
    else
      let r := syncLoop env changes s ctr []
      let s2 := StorageService.clearOfflineChanges r.2.1
      let s3 := StorageService.remove s2 "CACHE_tasks_list"
      ({ success := true, syncResults := r.1 }, s3, r.2.2)

end ApiService

end TaskApp

namespace TaskApp

/-! Basic facts about the key-value store operations. -/

theorem find_set_self (s : Store) (k : String) (v : JVal) :
    ((s.filter (fun p => p.fst != k)) ++ [(k, v)]).find?
      (fun p => p.fst == k) = some (k, v) := by
  induction s with
  | nil => simp
  | cons p s ih =>
      by_cases h : p.fst = k
      · simpa [List.filter_cons, h] using ih
      · simpa [List.filter_cons, h] using ih

theorem get_set_self (s : Store) (k : String) (v : JVal) :
    StorageService.get (StorageService.set s k v) k = some v := by
  unfold StorageService.get StorageService.set
  rw [find_set_self]
  rfl

theorem find_filter_of_imp (s : Store) (f g : String × JVal → Bool)
    (h : ∀ p, g p = true → f p = true) :
    (s.filter f).find? g = s.find? g := by
  induction s with
  | nil => rfl
  | cons p s ih =>
      cases hf : f p with
      | true =>
          rw [List.filter_cons_of_pos hf]
          cases hg : g p with
          | true =>
              rw [List.find?_cons_of_pos _ hg, List.find?_cons_of_pos _ hg]
          | false =>
              rw [List.find?_cons_of_neg _ (by simp [hg]),
                List.find?_cons_of_neg _ (by simp [hg]), ih]
      | false =>
          have hg : g p = false := by
            cases hgp : g p with
            | true => rw [h p hgp] at hf; exact Bool.noConfusion hf
            | false => rfl
          rw [List.filter_cons_of_neg (by simp [hf]),
            List.find?_cons_of_neg _ (by simp [hg]), ih]

theorem get_set_ne (s : Store) (k k' : String) (v : JVal) (h : k' ≠ k) :
    StorageService.get (StorageService.set s k v) k' =
      StorageService.get s k' := by
  unfold StorageService.get StorageService.set
  rw [List.find?_append,
    find_filter_of_imp s _ _ (fun p hp => by
      have : p.fst = k' := by simpa using hp
      simp [this, h]),
    List.find?_cons_of_neg _ (by simp [Ne.symm h]), List.find?_nil,
    Option.or_none]

theorem get_remove_self (s : Store) (k : String) :
    StorageService.get (StorageService.remove s k) k = none := by
  unfold StorageService.get StorageService.remove
  induction s with
  | nil => rfl
  | cons p s ih =>
      by_cases h : p.fst = k
      · simpa [List.filter_cons, h] using ih
      · simpa [List.filter_cons, h] using ih

theorem get_remove_ne (s : Store) (k k' : String) (h : k' ≠ k) :
    StorageService.get (StorageService.remove s k) k' =
      StorageService.get s k' := by
  unfold StorageService.get StorageService.remove
  rw [find_filter_of_imp s _ _ (fun p hp => by
    have : p.fst = k' := by simpa using hp
    simp [this, h])]

theorem get_clearCache (s : Store) (k : String)
    (h : k.startsWith "CACHE_" = false) :
    StorageService.get (StorageService.clearCache s) k =
      StorageService.get s k := by
  unfold StorageService.get StorageService.clearCache
  rw [find_filter_of_imp s _ _ (fun p hp => by
    have hpk : p.fst = k := by simpa using hp
    simp [hpk, h])]

/-! Facts about the cache layer. -/

theorem getCached_of_get_none (s : Store) (key : String) (w now : Nat)
    (h : StorageService.get s ("CACHE_" ++ key) = none) :
    StorageService.getCached s key w now = (none, s) := by
  simp only [StorageService.getCached]
  rw [h]

theorem getCached_hit (s : Store) (key : String) (d : List Task)
    (ts e w now : Nat)
    (h : StorageService.get s ("CACHE_" ++ key) = some (JVal.jEnv d ts e))
    (hv : (now : Int) - (ts : Int) < (w : Int)) :
    StorageService.getCached s key w now = (some d, s) := by
  simp only [StorageService.getCached]
  rw [h]
  simp [hv]

theorem getCached_miss (s : Store) (key : String) (d : List Task)
    (ts e w now : Nat)
    (h : StorageService.get s ("CACHE_" ++ key) = some (JVal.jEnv d ts e))
    (hv : ¬((now : Int) - (ts : Int) < (w : Int))) :
    StorageService.getCached s key w now =
      (none, StorageService.remove s ("CACHE_" ++ key)) := by
  simp only [StorageService.getCached]
  rw [h]
  simp [hv]

theorem get_setCached_self (s : Store) (key : String) (v : List Task)
    (w now : Nat) :
    StorageService.get (StorageService.setCached s key v w now)
      ("CACHE_" ++ key) = some (JVal.jEnv v now w) := by
  unfold StorageService.setCached
  exact get_set_self _ _ _


/-! Facts about saveTasks: it writes TASKS and repopulates the cache. -/

theorem getTasks_saveTasks (s : Store) (ts : List Task) (now : Nat) :
    StorageService.getTasks (StorageService.saveTasks s ts now) = ts := by
  unfold StorageService.saveTasks StorageService.setCached
  unfold StorageService.getTasks
  rw [get_set_ne _ _ _ _ (by decide), get_set_self]

theorem getCached_saveTasks (s : Store) (ts : List Task) (now : Nat) :
    (StorageService.getCached (StorageService.saveTasks s ts now)
      "tasks_list" CACHE_EXPIRATION.SHORT now).1 = some ts := by
  have hget : StorageService.get (StorageService.saveTasks s ts now)
      ("CACHE_" ++ "tasks_list")
      = some (JVal.jEnv ts now CACHE_EXPIRATION.SHORT) := by
    unfold StorageService.saveTasks
    exact get_setCached_self _ _ _ _ _
  rw [getCached_hit _ _ _ _ _ _ _ hget (by
    simp only [sub_self]
    decide)]

/-! Facts about the uniqueTasksMap merge step. -/

theorem ids_map_replace (acc : List Task) (t : Task) :
    ((acc.map (fun u => if u.id == t.id then t else u)).map Task.id)
      = acc.map Task.id := by
  induction acc with
  | nil => rfl
  | cons u acc ih =>
      by_cases h : u.id = t.id
      · simp only [List.map_cons, h]
        rw [if_pos (by simp)]
        simpa [h] using ih
      · simp only [List.map_cons]
        rw [if_neg (by simp [h])]
        simpa using ih

theorem ids_insertTaskMap (acc : List Task) (t : Task) :
    (insertTaskMap acc t).map Task.id =
      if acc.any (fun u => u.id == t.id) then acc.map Task.id
      else acc.map Task.id ++ [t.id] := by
  unfold insertTaskMap
  by_cases h : acc.any (fun u => u.id == t.id)
  · rw [if_pos h, if_pos h]
    by_cases hsrc : (t.source == "api" || t.source == "cache") = true
    · rw [if_pos hsrc]; exact ids_map_replace acc t
    · rw [if_neg hsrc]
  · rw [if_neg h, if_neg h, List.map_append]
    rfl

theorem pairwise_ids_insertTaskMap (acc : List Task) (t : Task)
    (h : (acc.map Task.id).Pairwise Ne) :
    ((insertTaskMap acc t).map Task.id).Pairwise Ne := by
  rw [ids_insertTaskMap]
  by_cases ha : acc.any (fun u => u.id == t.id)
  · rw [if_pos ha]; exact h
  · rw [if_neg ha]
    rw [List.pairwise_append]
    refine ⟨h, List.pairwise_singleton _ _, ?_⟩
    intro i hi b hb
    rw [List.mem_singleton] at hb
    subst hb
    rw [List.mem_map] at hi
    obtain ⟨u, hu, rfl⟩ := hi
    intro e
    apply ha
    rw [List.any_eq_true]
    exact ⟨u, hu, by simp [e]⟩

theorem mem_insertTaskMap (acc : List Task) (t x : Task)
    (h : x ∈ insertTaskMap acc t) : x ∈ acc ∨ x = t := by
  unfold insertTaskMap at h
  by_cases ha : acc.any (fun u => u.id == t.id)
  · rw [if_pos ha] at h
    by_cases hsrc : (t.source == "api" || t.source == "cache") = true
    · rw [if_pos hsrc] at h
      rw [List.mem_map] at h
      obtain ⟨u, hu, he⟩ := h
      by_cases hid : u.id = t.id
      · right; rw [← he, if_pos (by simp [hid])]
      · left; rw [← he, if_neg (by simp [hid])]; exact hu
    · rw [if_neg hsrc] at h; exact Or.inl h
  · rw [if_neg ha, List.mem_append, List.mem_singleton] at h
    exact h

theorem mem_ids_insertTaskMap (acc : List Task) (t : Task) (i : String)
    (h : i ∈ acc.map Task.id) : i ∈ (insertTaskMap acc t).map Task.id := by
  rw [ids_insertTaskMap]
  by_cases ha : acc.any (fun u => u.id == t.id)
  · rw [if_pos ha]; exact h
  · rw [if_neg ha]; exact List.mem_append_left _ h

theorem self_id_mem_insertTaskMap (acc : List Task) (t : Task) :
    t.id ∈ (insertTaskMap acc t).map Task.id := by
  rw [ids_insertTaskMap]
  by_cases ha : acc.any (fun u => u.id == t.id)
  · rw [if_pos ha]
    rw [List.any_eq_true] at ha
    obtain ⟨u, hu, he⟩ := ha
    have : u.id = t.id := by simpa using he
    rw [← this]
    exact List.mem_map_of_mem Task.id hu
  · rw [if_neg ha]
    exact List.mem_append_right _ (List.mem_singleton_self _)

theorem insertTaskMap_nonapi (acc : List Task) (t : Task)
    (h1 : t.source ≠ "api") (h2 : t.source ≠ "cache") :
    insertTaskMap acc t =
      if acc.any (fun u => u.id == t.id) then acc else acc ++ [t] := by
  unfold insertTaskMap
  by_cases ha : acc.any (fun u => u.id == t.id)
  · rw [if_pos ha, if_pos ha, if_neg (by simp [h1, h2])]
  · rw [if_neg ha, if_neg ha]

/-! Facts about the whole uniqueTasksMap fold. -/

theorem foldl_insertTaskMap_pairwise (l acc : List Task)
    (h : (acc.map Task.id).Pairwise Ne) :
    ((l.foldl insertTaskMap acc).map Task.id).Pairwise Ne := by
  induction l generalizing acc with
  | nil => exact h
  | cons t l ih =>
      rw [List.foldl_cons]
      exact ih _ (pairwise_ids_insertTaskMap acc t h)

theorem foldl_insertTaskMap_mem (l acc : List Task) (x : Task)
    (h : x ∈ l.foldl insertTaskMap acc) : x ∈ acc ∨ x ∈ l := by
  induction l generalizing acc with
  | nil => exact Or.inl h
  | cons t l ih =>
      rw [List.foldl_cons] at h
      rcases ih _ h with h1 | h1
      · rcases mem_insertTaskMap acc t x h1 with h2 | h2
        · exact Or.inl h2
        · exact Or.inr (h2 ▸ List.mem_cons_self t l)
      · exact Or.inr (List.mem_cons_of_mem t h1)

theorem foldl_insertTaskMap_ids (l acc : List Task) (i : String)
    (h : i ∈ acc.map Task.id ∨ i ∈ l.map Task.id) :
    i ∈ (l.foldl insertTaskMap acc).map Task.id := by
  induction l generalizing acc with
  | nil => simpa using h
  | cons t l ih =>
      rw [List.foldl_cons]
      rcases h with h1 | h1
      · exact ih _ (Or.inl (mem_ids_insertTaskMap acc t i h1))
      · rw [List.map_cons, List.mem_cons] at h1
        rcases h1 with h2 | h2
        · subst h2
          exact ih _ (Or.inl (self_id_mem_insertTaskMap acc t))
        · exact ih _ (Or.inr h2)

theorem foldl_insertTaskMap_local_mem (l acc : List Task) (x : Task)
    (hs : ∀ u ∈ l, u.source = "local_permanent")
    (h : x ∈ acc) : x ∈ l.foldl insertTaskMap acc := by
  induction l generalizing acc with
  | nil => exact h
  | cons t l ih =>
      rw [List.foldl_cons]
      have ht := hs t (List.mem_cons_self t l)
      rw [insertTaskMap_nonapi acc t (by rw [ht]; decide) (by rw [ht]; decide)]
      refine ih _ (fun u hu => hs u (List.mem_cons_of_mem t hu)) ?_
      by_cases ha : acc.any (fun u => u.id == t.id)
      · rw [if_pos ha]; exact h
      · rw [if_neg ha]; exact List.mem_append_left _ h

theorem foldl_insertTaskMap_local_adds (l acc : List Task) (t : Task)
    (hs : ∀ u ∈ l, u.source = "local_permanent")
    (hp : (l.map Task.id).Pairwise Ne)
    (hmem : t ∈ l) (hnew : t.id ∉ acc.map Task.id) :
    t ∈ l.foldl insertTaskMap acc := by
  induction l generalizing acc with
  | nil => exact absurd hmem (List.not_mem_nil t)
  | cons u l ih =>
      rw [List.foldl_cons]
      rw [List.map_cons, List.pairwise_cons] at hp
      rcases List.mem_cons.mp hmem with h1 | h1
      · subst h1
        have ha : acc.any (fun v => v.id == t.id) = false := by
          rw [List.any_eq_false]
          intro v hv
          simp only [beq_iff_eq]
          intro e
          exact hnew (e ▸ List.mem_map_of_mem Task.id hv)
        have ht := hs t (List.mem_cons_self t l)
        rw [insertTaskMap_nonapi acc t (by rw [ht]; decide)
          (by rw [ht]; decide), if_neg (by simp [ha])]
        exact foldl_insertTaskMap_local_mem l _ t
          (fun v hv => hs v (List.mem_cons_of_mem t hv))
          (List.mem_append_right _ (List.mem_singleton_self _))
      · refine ih _ (fun v hv => hs v (List.mem_cons_of_mem u hv)) hp.2 h1 ?_
        intro hm
        rw [ids_insertTaskMap] at hm
        by_cases ha : acc.any (fun v => v.id == u.id)
        · rw [if_pos ha] at hm; exact hnew hm
        · rw [if_neg ha, List.mem_append, List.mem_singleton] at hm
          rcases hm with hm | hm
          · exact hnew hm
          · exact hp.1 (t.id) (List.mem_map_of_mem Task.id h1) hm.symm

theorem ids_uniqueById_subset (l : List Task) (i : String)
    (h : i ∈ (uniqueById l).map Task.id) : i ∈ l.map Task.id := by
  unfold uniqueById at h
  rw [List.mem_map] at h
  obtain ⟨x, hx, rfl⟩ := h
  rcases foldl_insertTaskMap_mem l [] x hx with h1 | h1
  · exact absurd h1 (List.not_mem_nil x)
  · exact List.mem_map_of_mem Task.id h1

theorem uniqueById_eq_self_aux (l acc : List Task)
    (hfresh : ∀ x ∈ l, x.id ∉ acc.map Task.id)
    (hp : (l.map Task.id).Pairwise Ne) :
    l.foldl insertTaskMap acc = acc ++ l := by
  induction l generalizing acc with
  | nil => simp
  | cons t l ih =>
      rw [List.map_cons, List.pairwise_cons] at hp
      rw [List.foldl_cons]
      have ha : acc.any (fun u => u.id == t.id) = false := by
        rw [List.any_eq_false]
        intro v hv
        simp only [beq_iff_eq]
        intro e
        exact hfresh t (List.mem_cons_self t l) (e ▸ List.mem_map_of_mem Task.id hv)
      have hstep : insertTaskMap acc t = acc ++ [t] := by
        unfold insertTaskMap
        rw [if_neg (by simp [ha])]
      rw [hstep, ih _ ?_ hp.2]
      · simp
      · intro x hx
        rw [List.map_append, List.mem_append]
        rintro (hm | hm)
        · exact hfresh x (List.mem_cons_of_mem t hx) hm
        · rw [List.map_singleton, List.mem_singleton] at hm
          exact hp.1 x.id (List.mem_map_of_mem Task.id hx) hm.symm

theorem uniqueById_eq_self (l : List Task)
    (hp : (l.map Task.id).Pairwise Ne) : uniqueById l = l := by
  unfold uniqueById
  rw [uniqueById_eq_self_aux l [] (fun x _ => List.not_mem_nil _) hp]
  rfl

end TaskApp

namespace TaskApp

/-! Facts about the stable descending sort. -/

theorem insertByCreatedAt_perm (t : Task) (l : List Task) :
    List.Perm (insertByCreatedAt t l) (t :: l) := by
  induction l with
  | nil => exact List.Perm.refl _
  | cons u us ih =>
      unfold insertByCreatedAt
      by_cases h : u.createdAt ≤ t.createdAt
      · rw [if_pos h]
      · rw [if_neg h]
        exact (ih.cons u).trans (List.Perm.swap t u us)

theorem sortByCreatedAtDesc_perm (l : List Task) :
    List.Perm (sortByCreatedAtDesc l) l := by
  induction l with
  | nil => exact List.Perm.refl _
  | cons t l ih =>
      unfold sortByCreatedAtDesc
      rw [List.foldr_cons]
      exact (insertByCreatedAt_perm t _).trans (ih.cons t)

theorem mem_sortByCreatedAtDesc (l : List Task) (x : Task) :
    x ∈ sortByCreatedAtDesc l ↔ x ∈ l :=
  (sortByCreatedAtDesc_perm l).mem_iff

/-! Facts about the local_permanent marking. -/

theorem ids_markLocal (l : List Task) :
    (markLocal l).map Task.id = l.map Task.id := by
  induction l with
  | nil => rfl
  | cons t l ih => simpa [markLocal, markTask] using ih

theorem source_markLocal (l : List Task) (x : Task) (h : x ∈ markLocal l) :
    x.source = "local_permanent" := by
  unfold markLocal at h
  rw [List.mem_map] at h
  obtain ⟨u, _, rfl⟩ := h
  rfl

/-! Facts about the merge block of getTasks. -/

theorem mergeTasks_pairwise (a b : List Task) :
    (mergeTasks a b).Pairwise (fun x y => x.id ≠ y.id) := by
  unfold mergeTasks
  have h1 : ((uniqueById (a ++ b)).map Task.id).Pairwise Ne :=
    foldl_insertTaskMap_pairwise _ [] (by simp)
  have h3 : (uniqueById (a ++ b)).Pairwise (fun x y => x.id ≠ y.id) :=
    List.pairwise_map.mp h1
  exact (List.Perm.pairwise_iff (fun h e => h e.symm)
    (sortByCreatedAtDesc_perm _)).mpr h3

theorem mergeTasks_keeps_first (R L : List Task) (i : String)
    (h : i ∈ R.map Task.id)
    (hsrc : ∀ u ∈ L, u.source = "local_permanent") :
    ∃ r, r ∈ R ∧ r.id = i ∧ r ∈ mergeTasks R L := by
  have hi : i ∈ (uniqueById R).map Task.id :=
    foldl_insertTaskMap_ids R [] i (Or.inr h)
  obtain ⟨r, hr, rfl⟩ := List.mem_map.mp hi
  have hrR : r ∈ R := by
    rcases foldl_insertTaskMap_mem R [] r hr with h1 | h1
    · exact absurd h1 (List.not_mem_nil r)
    · exact h1
  have hfinal : r ∈ uniqueById (R ++ L) := by
    show r ∈ (R ++ L).foldl insertTaskMap []
    rw [List.foldl_append]
    exact foldl_insertTaskMap_local_mem L _ r hsrc hr
  exact ⟨r, hrR, rfl, (mem_sortByCreatedAtDesc _ _).mpr hfinal⟩

theorem mergeTasks_mem_id (R L : List Task) (t : Task) (hmem : t ∈ L) :
    ∃ u, u ∈ mergeTasks R (markLocal L) ∧ u.id = t.id := by
  have hmk : t.id ∈ (markLocal L).map Task.id := by
    rw [ids_markLocal]
    exact List.mem_map_of_mem Task.id hmem
  have hi : t.id ∈ (uniqueById (R ++ markLocal L)).map Task.id := by
    apply foldl_insertTaskMap_ids
    right
    rw [List.map_append]
    exact List.mem_append_right _ hmk
  obtain ⟨u, hu, he⟩ := List.mem_map.mp hi
  exact ⟨u, (mem_sortByCreatedAtDesc _ _).mpr hu, he⟩

theorem mergeTasks_local_adds (R L : List Task) (t : Task)
    (hp : (L.map Task.id).Pairwise Ne) (hmem : t ∈ L)
    (hnew : t.id ∉ R.map Task.id) :
    markTask t ∈ mergeTasks R (markLocal L) := by
  unfold mergeTasks
  have h1 : markTask t ∈ uniqueById (R ++ markLocal L) := by
    show markTask t ∈ (R ++ markLocal L).foldl insertTaskMap []
    rw [List.foldl_append]
    apply foldl_insertTaskMap_local_adds (markLocal L) _ (markTask t)
      (fun u hu => source_markLocal L u hu)
      (by rw [ids_markLocal]; exact hp)
      (List.mem_map_of_mem markTask hmem)
    intro hin
    exact hnew (ids_uniqueById_subset R _ hin)
  exact ((sortByCreatedAtDesc_perm _).mem_iff).mpr h1

/-! The store component of fetchTasksFromApi never touches the TASKS key. -/

theorem getCached_corrupt (s : Store) (key : String) (w now : Nat)
    (v : JVal) (h : StorageService.get s ("CACHE_" ++ key) = some v)
    (hv : ∀ d ts e, v ≠ JVal.jEnv d ts e) :
    StorageService.getCached s key w now =
      (none, StorageService.remove s ("CACHE_" ++ key)) := by
  simp only [StorageService.getCached]
  rw [h]
  cases v with
  | jEnv d ts e => exact absurd rfl (hv d ts e)
  | jTasks ts => rfl
  | jChanges cs => rfl
  | jRaw r => rfl

theorem get_getCached_snd (s : Store) (key : String) (w now : Nat)
    (k : String) (h : k ≠ "CACHE_" ++ key) :
    StorageService.get (StorageService.getCached s key w now).2 k =
      StorageService.get s k := by
  cases hg : StorageService.get s ("CACHE_" ++ key) with
  | none => rw [getCached_of_get_none _ _ _ _ hg]
  | some v =>
      cases v with
      | jTasks ts =>
          rw [getCached_corrupt _ _ _ _ _ hg (fun _ _ _ => by simp)]
          exact get_remove_ne _ _ _ h
      | jChanges cs =>
          rw [getCached_corrupt _ _ _ _ _ hg (fun _ _ _ => by simp)]
          exact get_remove_ne _ _ _ h
      | jRaw r =>
          rw [getCached_corrupt _ _ _ _ _ hg (fun _ _ _ => by simp)]
          exact get_remove_ne _ _ _ h
      | jEnv d ts e =>
          by_cases hv : (now : Int) - (ts : Int) < (w : Int)
          · rw [getCached_hit _ _ _ _ _ _ _ hg hv]
          · rw [getCached_miss _ _ _ _ _ _ _ hg hv]
            exact get_remove_ne _ _ _ h

theorem fetch_get_TASKS (env : Env) (s : Store) (fr : Bool) :
    StorageService.get (ApiService.fetchTasksFromApi env s fr).2.1 "TASKS" =
      StorageService.get s "TASKS" := by
  have hkey : ("TASKS" : String) ≠ "CACHE_" ++ "tasks_list" := by decide
  have hsnd : StorageService.get
      (if fr then ((none : Option (List Task)), s)
       else StorageService.getCached s "tasks_list"
         CACHE_EXPIRATION.SHORT env.now).2 "TASKS" =
      StorageService.get s "TASKS" := by
    by_cases h : fr
    · rw [if_pos h]
    · rw [if_neg h]
      exact get_getCached_snd s "tasks_list" _ _ "TASKS" hkey
  simp only [ApiService.fetchTasksFromApi]
  split
  · exact hsnd
  · split
    · split
      · exact hsnd
      · exact hsnd
    · split
      · show StorageService.get (StorageService.setCached _ "tasks_list" _ _ _)
          "TASKS" = _
        unfold StorageService.setCached
        rw [get_set_ne _ _ _ _ hkey]
        exact hsnd
      · split
        · exact hsnd
        · exact hsnd

theorem fetch_getTasks_local (env : Env) (s : Store) (fr : Bool) :
    StorageService.getTasks (ApiService.fetchTasksFromApi env s fr).2.1 =
      StorageService.getTasks s := by
  unfold StorageService.getTasks
  rw [fetch_get_TASKS]

/-! The shape of the getTasks result. -/

theorem getTasks_eq (env : Env) (s : Store) (fr : Bool) :
    ApiService.getTasks env s fr =
      ({ success := true,
         data := mergeTasks (ApiService.fetchedData env s fr)
           (markLocal (StorageService.getTasks s)),
         source := if (ApiService.fetchTasksFromApi env s fr).1.success
           then (ApiService.fetchTasksFromApi env s fr).1.source else "api",
         offline := if (ApiService.fetchTasksFromApi env s fr).1.success
           then (ApiService.fetchTasksFromApi env s fr).1.offline else false },
       (ApiService.fetchTasksFromApi env s fr).2.1,
       (ApiService.fetchTasksFromApi env s fr).2.2) := by
  simp only [ApiService.getTasks, mergeTasks, ApiService.fetchedData]
  rw [fetch_getTasks_local]

/-! Special evaluations of fetchTasksFromApi. -/

theorem cache_key_concat : ("CACHE_" ++ "tasks_list" : String) =
    "CACHE_tasks_list" := by
  decide

theorem fetch_offline_nocache (env : Env) (s : Store) (fr : Bool)
    (hon : env.isOnline = false)
    (hc : StorageService.get s "CACHE_tasks_list" = none) :
    ApiService.fetchTasksFromApi env s fr =
      ({ success := false,
         error := some "Offline and no cached data available.",
         offline := true }, s, false) := by
  have hc2 : StorageService.get s ("CACHE_" ++ "tasks_list") = none := by
    rw [cache_key_concat]; exact hc
  have hstep : (if fr then ((none : Option (List Task)), s)
      else StorageService.getCached s "tasks_list"
        CACHE_EXPIRATION.SHORT env.now) = (none, s) := by
    by_cases h : fr
    · rw [if_pos h]
    · rw [if_neg h]
      exact getCached_of_get_none _ _ _ _ hc2
  simp only [ApiService.fetchTasksFromApi]
  rw [hstep]
  simp only [hon, Bool.not_false, if_true]
  rw [show StorageService.get ((none : Option (List Task)), s).2
    ("CACHE_" ++ "tasks_list") = none from hc2]

theorem fetch_cachehit (env : Env) (s : Store) (d : List Task) (ts e : Nat)
    (hc : StorageService.get s "CACHE_tasks_list" = some (JVal.jEnv d ts e))
    (hv : (env.now : Int) - (ts : Int) < (CACHE_EXPIRATION.SHORT : Int)) :
    ApiService.fetchTasksFromApi env s false =
      ({ success := true, data := d, source := "cache", offline := false },
       s, false) := by
  have hc2 : StorageService.get s ("CACHE_" ++ "tasks_list") =
      some (JVal.jEnv d ts e) := by
    rw [cache_key_concat]; exact hc
  have hstep : StorageService.getCached s "tasks_list"
      CACHE_EXPIRATION.SHORT env.now = (some d, s) :=
    getCached_hit _ _ _ _ _ _ _ hc2 hv
  simp only [ApiService.fetchTasksFromApi]
  rw [if_neg (by decide), hstep]

/-! Facts about the offline queue and drain. -/

theorem getOfflineChanges_save (s : Store) (cs : List OfflineChange) :
    StorageService.getOfflineChanges (StorageService.saveOfflineChanges s cs)
      = cs := by
  unfold StorageService.getOfflineChanges StorageService.saveOfflineChanges
  rw [get_set_self]

theorem syncLoop_map (env : Env) (cs : List OfflineChange) (s : Store)
    (ctr : Nat) (acc : List SyncItem) :
    ((ApiService.syncLoop env cs s ctr acc).1).map
        (fun i => (i.taskId, i.action)) =
      acc.map (fun i => (i.taskId, i.action)) ++
        cs.map (fun c => (c.task.id,
          if c.action == "create" then "create"
          else if c.action == "delete" then "delete" else "update")) := by
  induction cs generalizing s ctr acc with
  | nil => simp [ApiService.syncLoop]
  | cons c cs ih =>
      simp only [ApiService.syncLoop]
      by_cases h1 : c.action = "create"
      · rw [if_pos (by simp [h1]), ih]
        simp [h1]
      · by_cases h2 : c.action = "delete"
        · rw [if_neg (by simp [h1]), if_pos (by simp [h2]), ih]
          simp [h1, h2]
        · rw [if_neg (by simp [h1]), if_neg (by simp [h2]), ih]
          simp [h1, h2]


/-! Claim theorems. -/

/-- C3: for every key k, value v and window w > 0, setCached(k, v, w)
immediately followed by getCached(k, w) returns v; once more than w
milliseconds have elapsed since the write, getCached(k, w) returns null
and deletes the entry, so a subsequent raw read of the same cache key
returns nothing. -/
theorem c3_cache_expiration (s : Store) (k : String) (v : List Task)
    (w now now2 : Nat) (hw : 0 < w) (h2 : now + w < now2) :
    (StorageService.getCached (StorageService.setCached s k v w now)
        k w now).1 = some v
    ∧ StorageService.getCached (StorageService.setCached s k v w now) k w now2
        = (none, StorageService.remove (StorageService.setCached s k v w now)
            ("CACHE_" ++ k))
    ∧ StorageService.get
        (StorageService.getCached (StorageService.setCached s k v w now)
          k w now2).2 ("CACHE_" ++ k) = none := by
  have hget : StorageService.get (StorageService.setCached s k v w now)
      ("CACHE_" ++ k) = some (JVal.jEnv v now w) := get_setCached_self s k v w now
  have hvalid : (now : Int) - (now : Int) < (w : Int) := by
    simp only [sub_self]
    exact_mod_cast hw
  have hexp : ¬((now2 : Int) - (now : Int) < (w : Int)) := by omega
  refine ⟨?_, ?_, ?_⟩
  · rw [getCached_hit _ _ _ _ _ _ _ hget hvalid]
  · exact getCached_miss _ _ _ _ _ _ _ hget hexp
  · rw [getCached_miss _ _ _ _ _ _ _ hget hexp]
    exact get_remove_self _ _

/-- Witness for c3_cache_expiration at k = "k", v = [], w = 1, write time 0,
read times 0 and 2. -/
theorem c3_cache_expiration_witness :
    (StorageService.getCached (StorageService.setCached [] "k" [] 1 0)
        "k" 1 0).1 = some []
    ∧ StorageService.getCached (StorageService.setCached [] "k" [] 1 0) "k" 1 2
        = (none, StorageService.remove (StorageService.setCached [] "k" [] 1 0)
            ("CACHE_" ++ "k"))
    ∧ StorageService.get
        (StorageService.getCached (StorageService.setCached [] "k" [] 1 0)
          "k" 1 2).2 ("CACHE_" ++ "k") = none :=
  c3_cache_expiration [] "k" [] 1 0 2 (by decide) (by decide)

/-- C10: the expiration window applied by getCached is solely the
caller-supplied argument: the expirationTime stored inside the envelope is
never read back (replacing it changes nothing), and the same stored entry
is a hit for a window larger than the elapsed time and an expired miss
with deletion for a window at most the elapsed time. -/
theorem c10_window_caller_only (s : Store) (k : String) (d : List Task)
    (ts e1 e2 w now : Nat)
    (h : StorageService.get s ("CACHE_" ++ k) = some (JVal.jEnv d ts e1)) :
    ((StorageService.getCached s k w now).1 =
      (StorageService.getCached
        (StorageService.set s ("CACHE_" ++ k) (JVal.jEnv d ts e2))
        k w now).1)
    ∧ (now < ts + w → (StorageService.getCached s k w now).1 = some d)
    ∧ (ts + w ≤ now →
        (StorageService.getCached s k w now).1 = none
        ∧ StorageService.get (StorageService.getCached s k w now).2
            ("CACHE_" ++ k) = none) := by
  have h2 : StorageService.get
      (StorageService.set s ("CACHE_" ++ k) (JVal.jEnv d ts e2))
      ("CACHE_" ++ k) = some (JVal.jEnv d ts e2) := get_set_self _ _ _
  refine ⟨?_, ?_, ?_⟩
  · by_cases hv : (now : Int) - (ts : Int) < (w : Int)
    · rw [getCached_hit _ _ _ _ _ _ _ h hv,
        getCached_hit _ _ _ _ _ _ _ h2 hv]
    · rw [getCached_miss _ _ _ _ _ _ _ h hv,
        getCached_miss _ _ _ _ _ _ _ h2 hv]
  · intro hlt
    have hv : (now : Int) - (ts : Int) < (w : Int) := by omega
    rw [getCached_hit _ _ _ _ _ _ _ h hv]
  · intro hge
    have hv : ¬((now : Int) - (ts : Int) < (w : Int)) := by omega
    rw [getCached_miss _ _ _ _ _ _ _ h hv]
    exact ⟨rfl, get_remove_self _ _⟩

/-- Witness for c10_window_caller_only: one stored entry written at time 0
with stored window 1 is a hit under caller window 3 at time 0, and an
evicting miss under the same caller window at time 7. -/
theorem c10_window_caller_only_witness :
    ((StorageService.getCached [("CACHE_k", JVal.jEnv [] 0 1)] "k" 3 0).1
      = some [])
    ∧ ((StorageService.getCached [("CACHE_k", JVal.jEnv [] 0 1)] "k" 3 7).1
        = none
      ∧ StorageService.get
          (StorageService.getCached [("CACHE_k", JVal.jEnv [] 0 1)]
            "k" 3 7).2 ("CACHE_" ++ "k") = none) := by
  have ha := c10_window_caller_only [("CACHE_k", JVal.jEnv [] 0 1)]
    "k" [] 0 1 9 3 0 (by decide)
  have hb := c10_window_caller_only [("CACHE_k", JVal.jEnv [] 0 1)]
    "k" [] 0 1 9 3 7 (by decide)
  exact ⟨ha.2.1 (by decide), hb.2.2 (by decide)⟩

/-- C5: updateTask and deleteTask report success on every path: remote
success, remote failure while online (the change is enqueued) and offline
(enqueued directly); in particular deleting an id that exists neither
locally nor remotely (any env with apiOk returning false models the remote
delete raising) still returns success. -/
theorem c5_mutations_always_succeed (env : Env) (s : Store) (ctr : Nat)
    (taskId : String) (updates : TaskPatch) :
    (ApiService.updateTask env s ctr taskId updates).1.success = true
    ∧ (ApiService.deleteTask env s ctr taskId).1.success = true := by
  constructor
  · unfold ApiService.updateTask
    split
    · split
      · rfl
      · rfl
    · rfl
  · unfold ApiService.deleteTask
    split
    · rfl
    · split
      · split
        · rfl
        · rfl
      · rfl

/-- C7: the offline queue is strict FIFO: addToOfflineChangesQueue appends
the new change at the end of the stored OFFLINE_CHANGES list, and the
drain of syncOfflineChanges replays the queued changes in stored order
(its per-item results list the queued task ids in queue order). -/
theorem c7_queue_fifo (env : Env) (s : Store) (ctr : Nat) (action : String)
    (taskData : Task) (now : Nat) (g : String) (hon : env.isOnline = true) :
    StorageService.getOfflineChanges
        (ApiService.addToOfflineChangesQueue s action taskData now g) =
      StorageService.getOfflineChanges s ++
        [{ action := action,
           task := { taskData with
             id := if taskData.id == "" then g else taskData.id,
             synced := false },
           timestamp := now }]
    ∧ ((ApiService.syncOfflineChanges env s ctr).1.syncResults.map
        (fun i => (i.taskId, i.action)) =
      (StorageService.getOfflineChanges s).map (fun c => (c.task.id,
        if c.action == "create" then "create"
        else if c.action == "delete" then "delete" else "update"))) := by
  constructor
  · simp only [ApiService.addToOfflineChangesQueue]
    rw [getOfflineChanges_save]
  · simp only [ApiService.syncOfflineChanges]
    rw [if_neg (by simp [hon])]
    by_cases hlen : (StorageService.getOfflineChanges s).length = 0
    · rw [if_pos (by simp [hlen])]
      rw [List.length_eq_zero.mp hlen]
      rfl
    · rw [if_neg (by simp [hlen])]
      simpa using syncLoop_map env (StorageService.getOfflineChanges s) s ctr []

/-- Witness for c7_queue_fifo: enqueue one change onto an empty store, and
drain a two-element queue online, observing the stored order. -/
theorem c7_queue_fifo_witness :
    StorageService.getOfflineChanges
        (ApiService.addToOfflineChangesQueue [] "update" { id := "a" } 5 "g") =
      [{ action := "update", task := { id := "a" }, timestamp := 5 }]
    ∧ (ApiService.syncOfflineChanges
        { isOnline := true, now := 0, apiGetTasks := none,
          apiOk := fun _ => true, apiPutResponse := fun _ => {},
          genId := fun _ => "g" }
        [("OFFLINE_CHANGES", JVal.jChanges
          [{ action := "update", task := { id := "a" } },
           { action := "delete", task := { id := "b" } }])]
        0).1.syncResults.map (fun i => (i.taskId, i.action)) =
      [("a", "update"), ("b", "delete")] := by
  have h := c7_queue_fifo
    { isOnline := true, now := 0, apiGetTasks := none,
      apiOk := fun _ => true, apiPutResponse := fun _ => {},
      genId := fun _ => "g" }
    [("OFFLINE_CHANGES", JVal.jChanges
      [{ action := "update", task := { id := "a" } },
       { action := "delete", task := { id := "b" } }])]
    0 "update" { id := "a" } 5 "g" rfl
  constructor
  · have h2 := (c7_queue_fifo
      { isOnline := true, now := 0, apiGetTasks := none,
        apiOk := fun _ => true, apiPutResponse := fun _ => {},
        genId := fun _ => "g" }
      ([] : Store) 0 "update" { id := "a" } 5 "g" rfl).1
    rw [h2]
    decide
  · rw [h.2]
    decide


/-- C1: the merged list returned by getTasks has no two tasks with the
same id, and for every id present both in the fetched remote/cache set R
and in the permanent local set L, the surviving record with that id is
drawn from R. -/
theorem c1_merge_determinism (env : Env) (s : Store) (fr : Bool) :
    ((ApiService.getTasks env s fr).1.data).Pairwise
        (fun a b => a.id ≠ b.id)
    ∧ ∀ i : String,
        i ∈ (ApiService.fetchedData env s fr).map Task.id →
        i ∈ (StorageService.getTasks s).map Task.id →
        ∃ r, r ∈ ApiService.fetchedData env s fr ∧ r.id = i ∧
          r ∈ (ApiService.getTasks env s fr).1.data := by
  have hdata : (ApiService.getTasks env s fr).1.data =
      mergeTasks (ApiService.fetchedData env s fr)
        (markLocal (StorageService.getTasks s)) := by
    rw [getTasks_eq]
  constructor
  · rw [hdata]
    exact mergeTasks_pairwise _ _
  · intro i hR _hL
    rw [hdata]
    exact mergeTasks_keeps_first _ _ i hR
      (fun u hu => source_markLocal _ u hu)

/-- Witness for c1_merge_determinism: the remote set and the permanent set
both contain id "1"; the merged view keeps the remote record. -/
theorem c1_merge_determinism_witness :
    (((ApiService.getTasks
        { isOnline := true, now := 0,
          apiGetTasks := some [{ id := 1, title := "t", userId := 2, completed := false }],
          apiOk := fun _ => true, apiPutResponse := fun _ => {},
          genId := fun _ => "g" }
        [("TASKS", JVal.jTasks [{ id := "1", createdAt := 9 }])]
        true).1.data).Pairwise (fun a b => a.id ≠ b.id))
    ∧ (∃ r, r ∈ ApiService.fetchedData
        { isOnline := true, now := 0,
          apiGetTasks := some [{ id := 1, title := "t", userId := 2, completed := false }],
          apiOk := fun _ => true, apiPutResponse := fun _ => {},
          genId := fun _ => "g" }
        [("TASKS", JVal.jTasks [{ id := "1", createdAt := 9 }])] true
        ∧ r.id = "1" ∧
        r ∈ (ApiService.getTasks
          { isOnline := true, now := 0,
            apiGetTasks := some [{ id := 1, title := "t", userId := 2, completed := false }],
            apiOk := fun _ => true, apiPutResponse := fun _ => {},
            genId := fun _ => "g" }
          [("TASKS", JVal.jTasks [{ id := "1", createdAt := 9 }])]
          true).1.data) := by
  have h := c1_merge_determinism
    { isOnline := true, now := 0,
      apiGetTasks := some [{ id := 1, title := "t", userId := 2, completed := false }],
      apiOk := fun _ => true, apiPutResponse := fun _ => {},
      genId := fun _ => "g" }
    [("TASKS", JVal.jTasks [{ id := "1", createdAt := 9 }])] true
  exact ⟨h.1, h.2 "1" (by decide) (by decide)⟩

/-- C4: for a task t in the permanent local set, every getTasks call
returns some record with id t.id; the exact saved record (tagged
local_permanent) is returned whenever the permanent set has no duplicate
ids and the fetched remote/cache data carries no record with t.id — in
particular under remote-fetch failure, cache corruption or a cleared
cache, where that data is empty; and clearCache never removes the TASKS
key. -/
theorem c4_permanent_durability (env : Env) (s : Store) (fr : Bool)
    (t : Task) (hmem : t ∈ StorageService.getTasks s) :
    (∃ u, u ∈ (ApiService.getTasks env s fr).1.data ∧ u.id = t.id)
    ∧ (((StorageService.getTasks s).map Task.id).Pairwise Ne →
        (∀ r ∈ ApiService.fetchedData env s fr, r.id ≠ t.id) →
        markTask t ∈ (ApiService.getTasks env s fr).1.data)
    ∧ StorageService.get (StorageService.clearCache s) "TASKS" =
        StorageService.get s "TASKS" := by
  have hdata : (ApiService.getTasks env s fr).1.data =
      mergeTasks (ApiService.fetchedData env s fr)
        (markLocal (StorageService.getTasks s)) := by
    rw [getTasks_eq]
  refine ⟨?_, ?_, get_clearCache s "TASKS" (by decide)⟩
  · rw [hdata]
    exact mergeTasks_mem_id _ _ t hmem
  · intro hp hnc
    rw [hdata]
    apply mergeTasks_local_adds _ _ t hp hmem
    intro hin
    obtain ⟨r, hr, he⟩ := List.mem_map.mp hin
    exact hnc r hr he

/-- Witness for c4_permanent_durability: a saved permanent task with id
"a" survives a getTasks call made offline with no cache (the remote-fetch
failure scenario), appearing marked local_permanent. -/
theorem c4_permanent_durability_witness :
    (∃ u, u ∈ (ApiService.getTasks
        { isOnline := false, now := 0, apiGetTasks := none,
          apiOk := fun _ => true, apiPutResponse := fun _ => {},
          genId := fun _ => "g" }
        [("TASKS", JVal.jTasks [{ id := "a", createdAt := 1 }])]
        false).1.data ∧ u.id = Task.id { id := "a", createdAt := 1 })
    ∧ markTask { id := "a", createdAt := 1 } ∈ (ApiService.getTasks
        { isOnline := false, now := 0, apiGetTasks := none,
          apiOk := fun _ => true, apiPutResponse := fun _ => {},
          genId := fun _ => "g" }
        [("TASKS", JVal.jTasks [{ id := "a", createdAt := 1 }])]
        false).1.data
    ∧ StorageService.get (StorageService.clearCache
        [("TASKS", JVal.jTasks [{ id := "a", createdAt := 1 }])]) "TASKS" =
      StorageService.get
        [("TASKS", JVal.jTasks [{ id := "a", createdAt := 1 }])] "TASKS" := by
  have h := c4_permanent_durability
    { isOnline := false, now := 0, apiGetTasks := none,
      apiOk := fun _ => true, apiPutResponse := fun _ => {},
      genId := fun _ => "g" }
    [("TASKS", JVal.jTasks [{ id := "a", createdAt := 1 }])]
    false { id := "a", createdAt := 1 } (by decide)
  exact ⟨h.1, h.2.1 (by decide) (by decide), h.2.2⟩

/-- C2 counterexample: with the device offline and a completely empty
store (no cache entry of any kind), getTasks(false) does NOT return the
claimed failure: it returns success = true with offline = false. -/
theorem c2_counterexample :
    ¬(((ApiService.getTasks
        { isOnline := false, now := 0, apiGetTasks := none,
          apiOk := fun _ => true, apiPutResponse := fun _ => {},
          genId := fun _ => "g" } ([] : Store) false).1.success = false)
      ∧ ((ApiService.getTasks
        { isOnline := false, now := 0, apiGetTasks := none,
          apiOk := fun _ => true, apiPutResponse := fun _ => {},
          genId := fun _ => "g" } ([] : Store) false).1.offline = true)) := by
  decide

/-- C2 amended: offline with no cache entry for the tasks collection, the
explicit failure with success = false and offline = true is produced by
the internal helper fetchTasksFromApi; getTasks itself absorbs it and
returns success = true, offline = false, with only the permanent local
tasks merged. -/
theorem c2_offline_failure_amended (env : Env) (s : Store) (fr : Bool)
    (hon : env.isOnline = false)
    (hc : StorageService.get s "CACHE_tasks_list" = none) :
    (ApiService.fetchTasksFromApi env s fr).1 =
      { success := false,
        error := some "Offline and no cached data available.",
        offline := true }
    ∧ (ApiService.getTasks env s fr).1.success = true
    ∧ (ApiService.getTasks env s fr).1.offline = false
    ∧ (ApiService.getTasks env s fr).1.data =
        mergeTasks [] (markLocal (StorageService.getTasks s)) := by
  have hf := fetch_offline_nocache env s fr hon hc
  have hfd : ApiService.fetchedData env s fr = [] := by
    unfold ApiService.fetchedData
    rw [hf]
    simp
  refine ⟨by rw [hf], ?_, ?_, ?_⟩
  · rw [getTasks_eq]
  · rw [getTasks_eq]
    simp [hf]
  · rw [getTasks_eq]
    rw [hfd]

/-- Witness for c2_offline_failure_amended on the empty store. -/
theorem c2_offline_failure_amended_witness :
    (ApiService.fetchTasksFromApi
      { isOnline := false, now := 0, apiGetTasks := none,
        apiOk := fun _ => true, apiPutResponse := fun _ => {},
        genId := fun _ => "g" } ([] : Store) false).1 =
      { success := false,
        error := some "Offline and no cached data available.",
        offline := true }
    ∧ (ApiService.getTasks
      { isOnline := false, now := 0, apiGetTasks := none,
        apiOk := fun _ => true, apiPutResponse := fun _ => {},
        genId := fun _ => "g" } ([] : Store) false).1.success = true := by
  have h := c2_offline_failure_amended
    { isOnline := false, now := 0, apiGetTasks := none,
      apiOk := fun _ => true, apiPutResponse := fun _ => {},
      genId := fun _ => "g" } ([] : Store) false rfl rfl
  exact ⟨h.1, h.2.1⟩


/-- C6 counterexample: called online with an EMPTY offline queue, the
tasks-collection cache entry is NOT removed (the early return leaves the
store untouched), contradicting the claim that every online call removes
it. -/
theorem c6_counterexample :
    ¬(StorageService.get
        (ApiService.syncOfflineChanges
          { isOnline := true, now := 0, apiGetTasks := none,
            apiOk := fun _ => true, apiPutResponse := fun _ => {},
            genId := fun _ => "g" }
          [("CACHE_tasks_list", JVal.jEnv [] 0 0)] 0).2.1
        "CACHE_tasks_list" = none) := by
  decide

/-- C6 amended: offline, syncOfflineChanges returns the typed failure with
the store untouched (the early return precedes the queue read); online
with an empty queue it returns an empty success, also leaving the store
(including the cache entry) untouched; online with a non-empty queue it
produces one result per queued change, then clears the whole queue and
removes the tasks-collection cache entry even when individual replays
failed. -/
theorem c6_sync_drain_amended (env : Env) (s : Store) (ctr : Nat) :
    (env.isOnline = false →
      (ApiService.syncOfflineChanges env s ctr).1 =
        { success := false, error := some "Cannot sync: Device is offline." }
      ∧ (ApiService.syncOfflineChanges env s ctr).2.1 = s)
    ∧ (env.isOnline = true → StorageService.getOfflineChanges s = [] →
      (ApiService.syncOfflineChanges env s ctr).1 = { success := true }
      ∧ (ApiService.syncOfflineChanges env s ctr).2.1 = s)
    ∧ (env.isOnline = true → StorageService.getOfflineChanges s ≠ [] →
      (ApiService.syncOfflineChanges env s ctr).1.success = true
      ∧ (ApiService.syncOfflineChanges env s ctr).1.syncResults.length =
          (StorageService.getOfflineChanges s).length
      ∧ StorageService.get (ApiService.syncOfflineChanges env s ctr).2.1
          "OFFLINE_CHANGES" = none
      ∧ StorageService.get (ApiService.syncOfflineChanges env s ctr).2.1
          "CACHE_tasks_list" = none) := by
  refine ⟨?_, ?_, ?_⟩
  · intro hoff
    simp only [ApiService.syncOfflineChanges]
    rw [if_pos (by simp [hoff])]
    exact ⟨rfl, rfl⟩
  · intro hon hemp
    simp only [ApiService.syncOfflineChanges]
    rw [if_neg (by simp [hon]), if_pos (by simp [hemp])]
    exact ⟨rfl, rfl⟩
  · intro hon hne
    simp only [ApiService.syncOfflineChanges]
    rw [if_neg (by simp [hon]),
      if_neg (by simp [List.length_eq_zero, hne])]
    refine ⟨rfl, ?_, ?_, ?_⟩
    · have h := syncLoop_map env (StorageService.getOfflineChanges s) s ctr []
      have h2 := congrArg List.length h
      simpa using h2
    · show StorageService.get
        (StorageService.remove (StorageService.clearOfflineChanges _)
          "CACHE_tasks_list") "OFFLINE_CHANGES" = none
      rw [get_remove_ne _ _ _ (by decide)]
      exact get_remove_self _ _
    · exact get_remove_self _ _

/-- Witness for c6_sync_drain_amended: the offline branch on an empty
store, and the online branch on a one-element queue with a cache entry
present (both end up removed). -/
theorem c6_sync_drain_amended_witness :
    ((ApiService.syncOfflineChanges
        { isOnline := false, now := 0, apiGetTasks := none,
          apiOk := fun _ => true, apiPutResponse := fun _ => {},
          genId := fun _ => "g" } ([] : Store) 0).1 =
      { success := false, error := some "Cannot sync: Device is offline." })
    ∧ (StorageService.get
        (ApiService.syncOfflineChanges
          { isOnline := true, now := 0, apiGetTasks := none,
            apiOk := fun _ => true, apiPutResponse := fun _ => {},
            genId := fun _ => "g" }
          [("OFFLINE_CHANGES", JVal.jChanges
              [{ action := "delete", task := { id := "9" } }]),
           ("CACHE_tasks_list", JVal.jEnv [] 0 0)] 0).2.1
        "OFFLINE_CHANGES" = none)
    ∧ (StorageService.get
        (ApiService.syncOfflineChanges
          { isOnline := true, now := 0, apiGetTasks := none,
            apiOk := fun _ => true, apiPutResponse := fun _ => {},
            genId := fun _ => "g" }
          [("OFFLINE_CHANGES", JVal.jChanges
              [{ action := "delete", task := { id := "9" } }]),
           ("CACHE_tasks_list", JVal.jEnv [] 0 0)] 0).2.1
        "CACHE_tasks_list" = none) := by
  have ha := (c6_sync_drain_amended
    { isOnline := false, now := 0, apiGetTasks := none,
      apiOk := fun _ => true, apiPutResponse := fun _ => {},
      genId := fun _ => "g" } ([] : Store) 0).1 rfl
  have hb := (c6_sync_drain_amended
    { isOnline := true, now := 0, apiGetTasks := none,
      apiOk := fun _ => true, apiPutResponse := fun _ => {},
      genId := fun _ => "g" }
    [("OFFLINE_CHANGES", JVal.jChanges
        [{ action := "delete", task := { id := "9" } }]),
     ("CACHE_tasks_list", JVal.jEnv [] 0 0)] 0).2.2 rfl (by decide)
  exact ⟨ha.1, hb.2.2.1, hb.2.2.2⟩

/-- C8 counterexample: immediately after StorageService.saveTask on an
empty store, a validity-checked read of the tasks-collection cache entry
is a hit (the mutating call repopulated the entry instead of removing
it), contradicting the claim that no valid cached entry remains. -/
theorem c8_counterexample :
    ¬((StorageService.getCached
        (StorageService.saveTask [] { id := "1", createdAt := 5 } 0)
        "tasks_list" CACHE_EXPIRATION.SHORT 0).1 = none) := by
  decide

/-- C8 amended: every mutating Task Repository call (saveTask, deleteTask,
and updateTask when the id exists) does not invalidate the materialized
tasks-list cache entry; instead it overwrites it through setCached with
the new permanent task list under the SHORT window, so that immediately
after the call a valid cached tasks-collection entry exists and equals the
new permanent list. -/
theorem c8_mutations_repopulate_cache (s : Store) (t : Task)
    (taskId : String) (p : TaskPatch) (now : Nat) :
    ((StorageService.getCached (StorageService.saveTask s t now)
        "tasks_list" CACHE_EXPIRATION.SHORT now).1 =
      some (StorageService.getTasks (StorageService.saveTask s t now)))
    ∧ ((StorageService.getCached (StorageService.deleteTask s taskId now)
        "tasks_list" CACHE_EXPIRATION.SHORT now).1 =
      some (StorageService.getTasks (StorageService.deleteTask s taskId now)))
    ∧ ((StorageService.getTasks s).any (fun u => u.id == taskId) = true →
      (StorageService.getCached
          ((StorageService.updateTask s taskId p now).2)
          "tasks_list" CACHE_EXPIRATION.SHORT now).1 =
        some (StorageService.getTasks
          (StorageService.updateTask s taskId p now).2)) := by
  refine ⟨?_, ?_, ?_⟩
  · simp only [StorageService.saveTask]
    rw [getCached_saveTasks, getTasks_saveTasks]
  · simp only [StorageService.deleteTask]
    rw [getCached_saveTasks, getTasks_saveTasks]
  · intro h
    simp only [StorageService.updateTask]
    rw [if_pos h]
    show (StorageService.getCached (StorageService.saveTasks s _ now)
        "tasks_list" CACHE_EXPIRATION.SHORT now).1 =
      some (StorageService.getTasks (StorageService.saveTasks s _ now))
    rw [getCached_saveTasks, getTasks_saveTasks]

/-- Witness for c8_mutations_repopulate_cache, exercising the updateTask
branch on a store whose permanent set contains the updated id. -/
theorem c8_mutations_repopulate_cache_witness :
    (StorageService.getCached
        ((StorageService.updateTask [("TASKS", JVal.jTasks [{ id := "1" }])]
          "1" {} 0).2)
        "tasks_list" CACHE_EXPIRATION.SHORT 0).1 =
      some (StorageService.getTasks
        (StorageService.updateTask [("TASKS", JVal.jTasks [{ id := "1" }])]
          "1" {} 0).2) :=
  (c8_mutations_repopulate_cache [("TASKS", JVal.jTasks [{ id := "1" }])]
    {} "1" {} 0).2.2 (by decide)

/-- C9 counterexample: with a valid SHORT-window cache entry containing
exactly one record of id "1" and a non-empty permanent local set,
getTasks(false) does NOT return exactly the cached array: the permanent
task is merged in as well. -/
theorem c9_counterexample :
    (ApiService.getTasks
      { isOnline := true, now := 0, apiGetTasks := none,
        apiOk := fun _ => true, apiPutResponse := fun _ => {},
        genId := fun _ => "g" }
      [("CACHE_tasks_list", JVal.jEnv [{ id := "1", createdAt := 10 }] 0 0),
       ("TASKS", JVal.jTasks [{ id := "2", createdAt := 20 }])]
      false).1.data ≠
      [{ id := "1", createdAt := 10 }] := by
  decide

/-- C9 amended: with a valid (unexpired) cache entry for the tasks
collection, getTasks(false) reads from the cache — source = "cache",
offline = false, and the remote gateway is not called — and its data is
the cached array merged with the marked permanent local tasks (cached
records surviving id conflicts), sorted by createdAt descending; when the
permanent set is empty and the cached ids are distinct, the data is
exactly the cached array re-sorted. -/
theorem c9_cache_hit_amended (env : Env) (s : Store) (d : List Task)
    (ts e : Nat)
    (hc : StorageService.get s "CACHE_tasks_list" = some (JVal.jEnv d ts e))
    (hv : (env.now : Int) - (ts : Int) < (CACHE_EXPIRATION.SHORT : Int)) :
    (ApiService.getTasks env s false).1.source = "cache"
    ∧ (ApiService.getTasks env s false).1.offline = false
    ∧ (ApiService.getTasks env s false).2.2 = false
    ∧ (ApiService.getTasks env s false).1.data =
        mergeTasks d (markLocal (StorageService.getTasks s))
    ∧ (StorageService.getTasks s = [] →
        (d.map Task.id).Pairwise Ne →
        (ApiService.getTasks env s false).1.data = sortByCreatedAtDesc d) := by
  have hf := fetch_cachehit env s d ts e hc hv
  have hfd : ApiService.fetchedData env s false = d := by
    unfold ApiService.fetchedData
    rw [hf]
    simp
  refine ⟨?_, ?_, ?_, ?_, ?_⟩
  · rw [getTasks_eq]
    simp [hf]
  · rw [getTasks_eq]
    simp [hf]
  · rw [getTasks_eq]
    rw [hf]
  · rw [getTasks_eq]
    rw [hfd]
  · intro hemp hp
    rw [getTasks_eq]
    simp only [hfd, hemp]
    show mergeTasks d (markLocal []) = sortByCreatedAtDesc d
    unfold mergeTasks markLocal
    rw [List.map_nil, List.append_nil, uniqueById_eq_self d hp]

/-- Witness for c9_cache_hit_amended: a valid cache entry with empty data
on a store with no permanent tasks. -/
theorem c9_cache_hit_amended_witness :
    (ApiService.getTasks
      { isOnline := true, now := 0, apiGetTasks := none,
        apiOk := fun _ => true, apiPutResponse := fun _ => {},
        genId := fun _ => "g" }
      [("CACHE_tasks_list", JVal.jEnv [] 0 0)] false).1.source = "cache"
    ∧ (ApiService.getTasks
      { isOnline := true, now := 0, apiGetTasks := none,
        apiOk := fun _ => true, apiPutResponse := fun _ => {},
        genId := fun _ => "g" }
      [("CACHE_tasks_list", JVal.jEnv [] 0 0)] false).2.2 = false
    ∧ (ApiService.getTasks
      { isOnline := true, now := 0, apiGetTasks := none,
        apiOk := fun _ => true, apiPutResponse := fun _ => {},
        genId := fun _ => "g" }
      [("CACHE_tasks_list", JVal.jEnv [] 0 0)] false).1.data =
      sortByCreatedAtDesc [] := by
  have h := c9_cache_hit_amended
    { isOnline := true, now := 0, apiGetTasks := none,
      apiOk := fun _ => true, apiPutResponse := fun _ => {},
      genId := fun _ => "g" }
    [("CACHE_tasks_list", JVal.jEnv [] 0 0)] [] 0 0 (by decide) (by decide)
  exact ⟨h.1, h.2.2.1, h.2.2.2.2 (by decide) (by simp)⟩

end TaskApp
